import Mathlib

/-!
Verification development for the ncopds OPDS terminal browser.

The Rust sources are shallowly embedded: URLs are modelled as strings
(the `url` crate is an external collaborator, so `Url::parse` / `Url::join`
are environment oracles), filesystem and network effects are environment
oracles passed explicitly, and Rust `Result` values together with the
possibility of a panic (`unwrap` / `expect`) are modelled by the `PRes`
type below.  Stateful methods take and return the connection record.
-/

set_option autoImplicit false

/-- URLs are modelled as plain strings; the `url` crate is external. -/
abbrev Url := String

/-- Rust `str::contains` (substring containment, case sensitive),
modelled as infix containment of the character lists. -/
def strContains (s pat : String) : Bool :=
  decide (pat.data <:+: s.data)

/-- Character-list engine for Rust `str::replace`: replace every
(leftmost, non-overlapping) occurrence of `pat` by `rep`.  The fuel is
the input length, enough for a nonempty pattern; the source only
substitutes the literal `"{searchTerms}"`, so the empty pattern is left
untouched. -/
def replaceFuel (pat rep : List Char) : Nat → List Char → List Char
  | 0, s => s
  | _ + 1, [] => []
  | fuel + 1, c :: rest =>
    if pat ≠ [] ∧ pat.isPrefixOf (c :: rest) then
      rep ++ replaceFuel pat rep fuel (List.drop (pat.length - 1) rest)
    else c :: replaceFuel pat rep fuel rest

/-- Rust `str::replace(pat, rep)` (all occurrences, literal). -/
def strReplace (s pat rep : String) : String :=
  ⟨replaceFuel pat.data rep.data s.data.length s.data⟩

/-- Split a character list on a separator character (engine for the
path-component handling of `PathBuf::extension`). -/
def splitOnChar (c : Char) : List Char → List (List Char)
  | [] => [[]]
  | x :: rest =>
    match splitOnChar c rest with
    | r :: rs => if x = c then [] :: r :: rs else (x :: r) :: rs
    | [] => [[]]

/-- `model.rs`: the payload of an OPDS entry (`EntryData`). -/
structure EntryData where
  title : String
  details : String
  author : Option String
  unsupported : Option String
  downloads : List (Url × String)
  image : Option Url
  href : Option Url
deriving DecidableEq, Repr

/-- `model.rs`: the tagged entry variants (`EntryType`). -/
inductive EntryType where
  | File (title : String) (url : Url)
  | Directory (title : String) (url : Url)
  | OPDSEntry (data : EntryData)
deriving DecidableEq, Repr

/-- `model.rs` `get_title_for_entry`. -/
def get_title_for_entry (e : EntryType) : String :=
  match e with
  | .File t _ => t
  | .Directory t _ => t
  | .OPDSEntry data => data.title

/-- The `url` crate's `ParseError`; only the `RelativeUrlWithoutBase`
variant is distinguished by the source (`utils.rs::parse_href`). -/
inductive ParseErr where
  | relativeUrlWithoutBase
  | other (s : String)
deriving DecidableEq, Repr

/-- Oracles for the external `url` crate. -/
structure UrlEnv where
  parseUrl : String → Except ParseErr Url
  joinUrl : Url → String → Except ParseErr Url

/-- `utils.rs` `parse_href`: attempt an absolute parse; on
`RelativeUrlWithoutBase` join with the base URL; propagate other errors. -/
def parse_href (env : UrlEnv) (href : String) (base_url : Url) : Except ParseErr Url :=
  match env.parseUrl href with
  | .ok res => .ok res
  | .error e =>
    match e with
    | .relativeUrlWithoutBase => env.joinUrl base_url href
    | .other s => .error (.other s)

/-- The outcome of a Rust computation that can return `Ok`, return `Err`,
or panic (`unwrap`/`expect`). -/
inductive PRes (ε : Type) (α : Type) where
  | ok (a : α)
  | err (e : ε)
  | panicked (msg : String)
deriving DecidableEq, Repr

/-! ## Local connection (`connection.rs::LocalConnection`) -/

/-- Filesystem oracles used by the local connection.  `readDir` models
`utils.rs::read_dir` (any io error is an `Err`); `metadata` models
`fs::metadata(..)` followed by `is_file()`, with `none` standing for a
metadata failure (which the source unwraps, i.e. panics on). -/
structure FsEnv where
  readDir : Url → Except String (List String)
  metadata : Url → Option Bool

/-- `LocalConnection`: history stack (top of stack = head of list) and
the initial directory. -/
structure LocalConnection where
  history : List Url
  init_dir : Url
deriving DecidableEq, Repr

/-- `LocalConnection::current_address`: top of the history stack, or the
initial directory when the stack is empty. -/
def LocalConnection.current_address (c : LocalConnection) : Url :=
  c.history.headD c.init_dir

/-- The per-filename body of `LocalConnection::get_page`: build the full
path `addr/fname`, stat it (panicking like the source's `unwrap` when the
metadata call fails) and classify as `File` or `Directory`. -/
def classifyNames (env : FsEnv) (addr : Url) : List String → PRes String (List EntryType)
  | [] => .ok []
  | fname :: rest =>
    let full_path := addr ++ "/" ++ fname
    match env.metadata full_path with
    | none => .panicked "metadata failed"
    | some isFile =>
      match classifyNames env addr rest with
      | .ok es =>
        .ok ((if isFile then EntryType.File fname full_path
              else EntryType.Directory fname full_path) :: es)
      | .err e => .err e
      | .panicked m => .panicked m

/-- `LocalConnection::get_page`: read the directory (errors propagate)
and classify every name. -/
def LocalConnection.get_page (env : FsEnv) (addr : Url) : PRes String (List EntryType) :=
  match env.readDir addr with
  | .error e => .err e
  | .ok fnames => classifyNames env addr fnames

/-- `LocalConnection::navigate_to`: push the address on the history
unconditionally, then fetch the page. -/
def LocalConnection.navigate_to (env : FsEnv) (c : LocalConnection) (addr : Url) :
    PRes String (List EntryType) × LocalConnection :=
  let c' : LocalConnection := { c with history := addr :: c.history }
  (LocalConnection.get_page env addr, c')

/-- `LocalConnection::back`: when the history is nonempty, pop and fetch
the new current address; otherwise fail. -/
def LocalConnection.back (env : FsEnv) (c : LocalConnection) :
    PRes String (List EntryType) × LocalConnection :=
  if c.history.isEmpty then
    (.err "At directory root; cannot go back.", c)
  else
    let c' : LocalConnection := { c with history := c.history.tail }
    (LocalConnection.get_page env c'.current_address, c')

/-- `LocalConnection::search`: re-navigate to the current address (pushing
one history entry), `unwrap` the result (panicking when the read failed),
and filter entries whose title contains the query. -/
def LocalConnection.search (env : FsEnv) (c : LocalConnection) (query : String) :
    PRes String (List EntryType) × LocalConnection :=
  match LocalConnection.navigate_to env c c.current_address with
  | (.ok entries, c') =>
    (.ok (entries.filter (fun x => strContains (get_title_for_entry x) query)), c')
  | (.err _, c') => (.panicked "called Result unwrap on an Err value", c')
  | (.panicked m, c') => (.panicked m, c')

/-! ## Atom entries and the OPDS derivation (`model.rs`) -/

/-- An `atom_syndication` link: href, relation, optional mime type. -/
structure AtomLink where
  href : String
  rel : String
  mime_type : Option String
deriving DecidableEq, Repr

/-- An `atom_syndication` entry, restricted to the fields the derivation
reads.  `content` mirrors `Option<Content>` with `Content::value()` an
`Option<String>` (the source unwraps the inner option). -/
structure AtomEntry where
  title : String
  authors : List String
  summary : Option String
  content : Option (Option String)
  categories : List (Option String)
  links : List AtomLink
deriving DecidableEq, Repr

/-- The author field of `process_opds_entry`: comma-joined author names,
absent when there are none. -/
def authorOf (entry : AtomEntry) : Option String :=
  if entry.authors.isEmpty then none
  else some (String.intercalate "," entry.authors)

/-- The details string of `process_opds_entry`: summary, content value and
category labels concatenated in order.  Returns `none` exactly when the
source panics (a content element whose `value()` is `None` is unwrapped). -/
def detailsOf (entry : AtomEntry) : Option String :=
  match entry.content with
  | some none => none
  | _ =>
    let s1 :=
      match entry.summary with
      | some s => "Summary: " ++ s ++ "\n\n"
      | none => ""
    let s2 :=
      match entry.content with
      | some (some c) => c ++ "\n"
      | _ => ""
    let s3 :=
      if entry.categories.isEmpty then ""
      else "Categories: " ++
        String.intercalate "," (entry.categories.map (fun x => x.getD ""))
    some (s1 ++ s2 ++ s3)

/-- Whether a link relation marks an unsupported acquisition type. -/
def relUnsupported (rel : String) : Bool :=
  strContains rel "acquisition" &&
    (strContains rel "borrow" || strContains rel "buy" ||
     strContains rel "subscribe" || strContains rel "sample")

/-- The outcome of the link loop of `process_opds_entry`: the four
accumulators on success, a propagated `url::ParseError`, or a panic. -/
inductive LinksRes where
  | ok (downloads : List (Url × String)) (image : Option Url)
       (f_href : Option Url) (unsupported : Option String)
  | err (e : ParseErr)
  | panicked (msg : String)
deriving DecidableEq, Repr

/-- The link loop of `process_opds_entry`, in source order per link:
resolve the href (errors propagate), record an unsupported acquisition
relation (last wins), demand a mime type (absence panics via `expect`),
then classify: atom feeds set `href`, images set `image`, everything else
is appended to `downloads`. -/
def processLinks (env : UrlEnv) (base_url : Url) :
    List AtomLink → List (Url × String) → Option Url → Option Url → Option String → LinksRes
  | [], downloads, image, f_href, unsupported => .ok downloads image f_href unsupported
  | link :: rest, downloads, image, f_href, unsupported =>
    match parse_href env link.href base_url with
    | .error e => .err e
    | .ok href =>
      let unsupported' := if relUnsupported link.rel then some link.rel else unsupported
      match link.mime_type with
      | none => .panicked "malformed feed, expected mime-type"
      | some mt =>
        if strContains mt "application/atom+xml" then
          processLinks env base_url rest downloads image (some href) unsupported'
        else if strContains mt "image" then
          processLinks env base_url rest downloads (some href) f_href unsupported'
        else
          processLinks env base_url rest (downloads ++ [(href, mt)]) image f_href unsupported'

/-- `model.rs::process_opds_entry`: build the details (the content value
unwrap may panic), run the link loop, and assemble the `OPDSEntry`. -/
def process_opds_entry (env : UrlEnv) (entry : AtomEntry) (base_url : Url) :
    PRes ParseErr EntryType :=
  match detailsOf entry with
  | none => .panicked "called Option unwrap on a None value"
  | some entry_details =>
    match processLinks env base_url entry.links [] none none none with
    | .err e => .err e
    | .panicked m => .panicked m
    | .ok downloads image f_href unsupported =>
      .ok (.OPDSEntry {
        title := entry.title
        author := authorOf entry
        details := entry_details
        unsupported := unsupported
        downloads := downloads
        image := image
        href := f_href })

/-! ## Online connection (`connection.rs::OnlineConnection`) -/

/-- Error values flowing out of `OnlineConnection` methods
(`Box<dyn Error>` in the source), distinguished by provenance: literal
`&str` errors, network/HTTP errors, and `url::ParseError`s. -/
inductive CErr where
  | strMsg (s : String)
  | net (s : String)
  | urlParse (e : ParseErr)
deriving DecidableEq, Repr

/-- Network oracle for the online connection.  `fetchFeed` composes the
authenticated GET, the HTTP status check, the body read and
`Feed::read_from`; each of those failures propagates out of `get_page`
identically, so their composition is a single fallible step yielding the
feed's entries. -/
structure NetEnv where
  fetchFeed : Url → Except String (List AtomEntry)

/-- `OnlineConnection` state: history stack (top = head), the page cache,
the optional OpenSearch template, and the server's domain
(`server_info.get_domain()`). -/
structure OnlineConnection where
  history : List Url
  cache : List (Url × List EntryType)
  search_url : Option String
  domain : Url
deriving DecidableEq, Repr

/-- `HashMap::get` over the association-list cache. -/
def cacheLookup (u : Url) : List (Url × List EntryType) → Option (List EntryType)
  | [] => none
  | (k, v) :: rest => if k = u then some v else cacheLookup u rest

/-- Result of an `OnlineConnection` operation: the returned value, the
updated connection, and the number of outbound HTTP page requests made. -/
structure RemoteOut where
  res : PRes CErr (List EntryType)
  conn : OnlineConnection
  reqs : Nat
deriving DecidableEq, Repr

/-- The entry-processing loop of `OnlineConnection::get_page`: transform
every Atom entry, propagating errors and panics. -/
def processEntries (uenv : UrlEnv) (domain : Url) :
    List AtomEntry → PRes CErr (List EntryType)
  | [] => .ok []
  | entry :: rest =>
    match process_opds_entry uenv entry domain with
    | .err e => .err (.urlParse e)
    | .panicked m => .panicked m
    | .ok processed =>
      match processEntries uenv domain rest with
      | .ok es => .ok (processed :: es)
      | .err e => .err e
      | .panicked m => .panicked m

/-- `OnlineConnection::get_page`: return the cached vector if present
(no request); otherwise GET and parse the feed (one request, errors
propagate), transform each entry, and cache the result keyed by the
exact URL. -/
def OnlineConnection.get_page (uenv : UrlEnv) (nenv : NetEnv)
    (c : OnlineConnection) (addr : Url) : RemoteOut :=
  match cacheLookup addr c.cache with
  | some d => ⟨.ok d, c, 0⟩
  | none =>
    match nenv.fetchFeed addr with
    | .error e => ⟨.err (.net e), c, 1⟩
    | .ok entries =>
      match processEntries uenv c.domain entries with
      | .ok processed =>
        ⟨.ok processed, { c with cache := (addr, processed) :: c.cache }, 1⟩
      | .err e => ⟨.err e, c, 1⟩
      | .panicked m => ⟨.panicked m, c, 1⟩

/-- `OnlineConnection::navigate_to`: push unconditionally, then fetch. -/
def OnlineConnection.navigate_to (uenv : UrlEnv) (nenv : NetEnv)
    (c : OnlineConnection) (addr : Url) : RemoteOut :=
  OnlineConnection.get_page uenv nenv { c with history := addr :: c.history } addr

/-- `OnlineConnection::current_address` given the server base URL. -/
def OnlineConnection.current_address (base_url : Url) (c : OnlineConnection) : Url :=
  c.history.headD base_url

/-- `OnlineConnection::back`: pop then fetch the new current address when
the history is nonempty; fail otherwise. -/
def OnlineConnection.back (uenv : UrlEnv) (nenv : NetEnv) (base_url : Url)
    (c : OnlineConnection) : RemoteOut :=
  if c.history.isEmpty then
    ⟨.err (.strMsg "At ODPS root; cannot go back."), c, 0⟩
  else
    let c' : OnlineConnection := { c with history := c.history.tail }
    OnlineConnection.get_page uenv nenv c' (OnlineConnection.current_address base_url c')

/-- `OnlineConnection::search`: without a search template, fail with the
fixed message; otherwise substitute every `{searchTerms}` occurrence with
the raw query, parse the result as a URL (errors propagate) and navigate
to it. -/
def OnlineConnection.search (uenv : UrlEnv) (nenv : NetEnv)
    (c : OnlineConnection) (query : String) : RemoteOut :=
  match c.search_url with
  | some su =>
    match uenv.parseUrl (strReplace su "{searchTerms}" query) with
    | .error e => ⟨.err (.urlParse e), c, 0⟩
    | .ok tu => OnlineConnection.navigate_to uenv nenv c tu
  | none => ⟨.err (.strMsg "Server does not have searching enabled."), c, 0⟩

/-- The `Connection` operations a session may perform on an online
connection after construction. -/
inductive ROp where
  | getPage (u : Url)
  | navigateTo (u : Url)
  | goBack
  | searchFor (q : String)

/-- Apply one operation, keeping only the updated connection state. -/
def applyROp (uenv : UrlEnv) (nenv : NetEnv) (base_url : Url)
    (c : OnlineConnection) : ROp → OnlineConnection
  | .getPage u => (OnlineConnection.get_page uenv nenv c u).conn
  | .navigateTo u => (OnlineConnection.navigate_to uenv nenv c u).conn
  | .goBack => (OnlineConnection.back uenv nenv base_url c).conn
  | .searchFor q => (OnlineConnection.search uenv nenv c q).conn

/-- Run a whole session of operations. -/
def runROps (uenv : UrlEnv) (nenv : NetEnv) (base_url : Url)
    (c : OnlineConnection) : List ROp → OnlineConnection
  | [] => c
  | op :: rest => runROps uenv nenv base_url (applyROp uenv nenv base_url c op) rest

/-! ## OpenSearch discovery (`connection.rs::parse_osd` / `find_search_url`) -/

/-- An element of a parsed OpenSearch descriptor document, as read by
`parse_osd`: tag name, `type` attribute, `template` attribute. -/
structure OsdElement where
  name : String
  typeAttr : Option String
  template : Option String
deriving DecidableEq, Repr

/-- `connection.rs::parse_osd`: the first descendant named `Url` whose
`type` attribute contains `"application/atom+xml"`; return its
`template` attribute (absent when the element or attribute is missing).
A `roxmltree::Document` is modelled by its descendant list in document
order. -/
def parse_osd (osd : List OsdElement) : Option String :=
  match osd.find? (fun x =>
      x.name == "Url" &&
        (match x.typeAttr with
         | some t => strContains t "application/atom+xml"
         | none => false)) with
  | some el => el.template
  | none => none

/-- Oracle for fetching and parsing an OpenSearch descriptor.  It
composes the authenticated GET, the body read, the UTF-8 decode and
`Document::parse`; each of those failures makes `find_search_url` return
`None` immediately (the `?` operator), so the composition is a single
partial step. -/
structure OsdEnv where
  fetchOsd : Url → Option (List OsdElement)

/-- Outcome of `find_search_url`: a template, absent, or a panic. -/
inductive SearchDiscovery where
  | found (template : String)
  | absent
  | panicked
deriving DecidableEq, Repr

/-- The loop of `connection.rs::find_search_url`, carrying the mutable
`search_url` accumulator.  Per matching link (rel `"search"`, mime type
containing `"opensearchdescription"`): resolve the href with
`parse_href(..).expect("")` (a parse failure panics), fetch and parse the
descriptor (failure returns `None` for the whole function via `?`),
extract the template (`?` likewise), resolve it (`ok()?` likewise), and
overwrite the accumulator. -/
def findSearchUrlAux (uenv : UrlEnv) (oenv : OsdEnv) (domain : Url) :
    List AtomLink → Option String → SearchDiscovery
  | [], acc =>
    match acc with
    | some t => .found t
    | none => .absent
  | link :: rest, acc =>
    match link.mime_type with
    | none => findSearchUrlAux uenv oenv domain rest acc
    | some mt =>
      if link.rel == "search" && strContains mt "opensearchdescription" then
        match parse_href uenv link.href domain with
        | .error _ => .panicked
        | .ok u =>
          match oenv.fetchOsd u with
          | none => .absent
          | some osd =>
            match parse_osd osd with
            | none => .absent
            | some search_str =>
              match parse_href uenv search_str domain with
              | .error _ => .absent
              | .ok su => findSearchUrlAux uenv oenv domain rest (some su)
      else findSearchUrlAux uenv oenv domain rest acc

/-- `connection.rs::find_search_url` over the top-level feed links. -/
def find_search_url (uenv : UrlEnv) (oenv : OsdEnv) (domain : Url)
    (links : List AtomLink) : SearchDiscovery :=
  findSearchUrlAux uenv oenv domain links none

/-! ## save_as (`utils.rs::save_as`) -/

/-- `PathBuf::extension` of a path string: the part of the final path
component after its last dot, absent when there is no dot or the only
dot is leading. -/
def pathExtension (p : String) : Option String :=
  let name := (splitOnChar '/' p.data).getLastD []
  match splitOnChar '.' name with
  | [] => none
  | [_] => none
  | first :: rest =>
    if first = [] && rest.length == 1 then none
    else (rest.getLast?).map (fun cs => String.mk cs)

/-- Filesystem effects performed by `save_as`. -/
inductive FsEffect where
  | created (path : String)
  | wrote (data : List Nat)
deriving DecidableEq, Repr

/-- Environment for `save_as`: `joinPath` composes `Url::join` and
`to_file_path` (both unwrapped, so failure panics); `inferExt` is the
external `infer` crate's sniffed extension for the data; `createFile`
tells whether `File::create` succeeds or with which error it fails. -/
structure SaveEnv where
  joinPath : Url → String → Option String
  inferExt : List Nat → Option String
  createFile : String → Except String Unit

/-- `utils.rs::save_as`: join the path (unwrap), sniff the file type
(`expect` panics when unknown), read the filename extension (unwrap
panics when absent), fail with the download diagnostic on mismatch,
otherwise create the file and write the bytes (the write result is
discarded).  Also returns the filesystem effects performed. -/
def save_as (env : SaveEnv) (data : List Nat) (dir : Url) (fname : String) :
    PRes String Unit × List FsEffect :=
  match env.joinPath dir fname with
  | none => (.panicked "called Option unwrap on a None value", [])
  | some full_fname =>
    let ext := pathExtension full_fname
    match env.inferExt data with
    | none => (.panicked "file type is known", [])
    | some kindExt =>
      match ext with
      | none => (.panicked "called Option unwrap on a None value", [])
      | some e =>
        if kindExt ≠ e then
          (.err ("Could not save " ++ fname ++
            ". File was not downloaded properly. File was returned from the server as a "
            ++ kindExt), [])
        else
          match env.createFile full_fname with
          | .error e2 => (.err e2, [])
          | .ok _ => (.ok (), [.created full_fname, .wrote data])

/-! ## Server record (`server.rs`) -/

/-- The keyring backend's error type; only `NoEntry` is distinguished. -/
inductive KeyringError where
  | noEntry
  | other (s : String)
deriving DecidableEq, Repr

/-- Oracle for the OS keyring: password lookup by service and key. -/
structure Keyring where
  get : String → String → Except KeyringError String

/-- `server.rs::Server`: optional username and catalog base URL. -/
structure Server where
  username : Option String
  base_url : Url
deriving DecidableEq, Repr

/-- `server.rs::Server::get_password`: absent without a username;
otherwise look up `"{username}@{base_url}"` under service `"ncopds"`,
propagating every keyring error, and treat an empty stored password as
absent. -/
def Server.get_password (kr : Keyring) (s : Server) :
    Except KeyringError (Option String) :=
  match s.username with
  | some u =>
    match kr.get "ncopds" (u ++ "@" ++ s.base_url) with
    | .error e => .error e
    | .ok password =>
      if password = "" then .ok none else .ok (some password)
  | none => .ok none

/-! ## Controller frame loop (`controller.rs::Controller::run`) -/

/-- Outbound UI messages relevant to the run-loop model. -/
inductive UIMsg where
  | updateDirectoryView (title : String) (entries : List EntryType) (status : String)
  | showInfo (title : String) (body : String)
deriving DecidableEq, Repr

/-- Render a connection error for `ShowInfo` (`to_string` on the boxed
error). -/
def cerrString : CErr → String
  | .strMsg s => s
  | .net s => s
  | .urlParse _ => "url parse error"

/-- `Controller::new` line 103: `refresh_timer: 30 * 5 * 60`, documented
as "fps * time in seconds". -/
def refresh_timer : Nat := 30 * 5 * 60

/-- The guard of the periodic refresh in `Controller::run` line 512:
`frame % (30 * self.refresh_timer) == 0 && &self.current_tab != "local"`. -/
def periodic_refresh_fires (frame : Nat) (current_tab : String) : Bool :=
  frame % (30 * refresh_timer) == 0 && current_tab != "local"

/-- `Controller::refresh`: `get_page` on the active connection's current
address with `?` (errors propagate to the caller), then send an
`UpdateDirectoryView`.  The timestamped status message is abstracted by
`updMsg`. -/
def refreshStep (addr : String) (updMsg : String)
    (getPageRes : Except CErr (List EntryType)) : Except CErr (List UIMsg) :=
  match getPageRes with
  | .error e => .error e
  | .ok entries => .ok [.updateDirectoryView addr entries updMsg]

/-- The watcher-drain loop of `Controller::run` (lines 506-510): for each
event that `is_ok` while the active tab is `"local"`, run `refresh` with
`?` (its error propagates out of `run`). -/
def drainWatcher (tab : String) (addr updMsg : String)
    (getPageRes : Except CErr (List EntryType)) :
    List Bool → Except CErr (List UIMsg)
  | [] => .ok []
  | evOk :: rest =>
    if evOk && tab == "local" then
      match refreshStep addr updMsg getPageRes with
      | .error e => .error e
      | .ok msgs =>
        match drainWatcher tab addr updMsg getPageRes rest with
        | .error e => .error e
        | .ok more => .ok (msgs ++ more)
    else drainWatcher tab addr updMsg getPageRes rest

/-- One iteration of the frame loop body of `Controller::run`
(lines 496-515), parameterised by the outcomes of the drained
`handle_messages` calls, the watcher events, and the active connection's
`get_page` outcome.  Handler errors become `ShowInfo("Error", ..)`
messages; refresh errors (watcher-driven or periodic) propagate with `?`
and terminate the loop. -/
def runFrameBody (msgOutcomes : List (Except CErr Unit)) (watcherEvents : List Bool)
    (tab : String) (frame : Nat) (addr updMsg : String)
    (getPageRes : Except CErr (List EntryType)) : Except CErr (List UIMsg) :=
  let handlerMsgs := msgOutcomes.filterMap (fun r =>
    match r with
    | .error e => some (UIMsg.showInfo "Error" (cerrString e))
    | .ok _ => none)
  match drainWatcher tab addr updMsg getPageRes watcherEvents with
  | .error e => .error e
  | .ok watcherMsgs =>
    if periodic_refresh_fires frame tab then
      match refreshStep addr updMsg getPageRes with
      | .error e => .error e
      | .ok msgs => .ok (handlerMsgs ++ watcherMsgs ++ msgs)
    else .ok (handlerMsgs ++ watcherMsgs)

/-! ## Shared lemmas -/

/-- `OnlineConnection::get_page` never touches the history stack. -/
theorem get_page_history (uenv : UrlEnv) (nenv : NetEnv)
    (c : OnlineConnection) (addr : Url) :
    (OnlineConnection.get_page uenv nenv c addr).conn.history = c.history := by
  unfold OnlineConnection.get_page
  split
  · rfl
  · split
    · rfl
    · split <;> rfl

/-- The entry-processing loop only produces `url::ParseError` errors. -/
theorem processEntries_no_strMsg (uenv : UrlEnv) (d : Url)
    (entries : List AtomEntry) (s : String) :
    processEntries uenv d entries ≠ .err (.strMsg s) := by
  induction entries with
  | nil => simp [processEntries]
  | cons e rest ih =>
    unfold processEntries
    split
    · simp
    · simp
    · split
      · simp
      · intro hc
        apply ih
        rw [PRes.err.injEq] at hc
        simp_all
      · simp

/-- `OnlineConnection::get_page` never fails with a literal `&str` error:
its error values are network errors or `url::ParseError`s. -/
theorem get_page_no_strMsg (uenv : UrlEnv) (nenv : NetEnv)
    (c : OnlineConnection) (addr : Url) (s : String) :
    (OnlineConnection.get_page uenv nenv c addr).res ≠ .err (.strMsg s) := by
  unfold OnlineConnection.get_page
  split
  · simp
  · split
    · simp
    · split
      · simp
      · rename_i heq
        intro hc
        apply processEntries_no_strMsg uenv c.domain _ s
        rw [heq]
        simp only [PRes.err.injEq] at hc ⊢
        exact hc
      · simp

/-- `OnlineConnection::navigate_to` pushes the target address. -/
theorem remote_nav_history (uenv : UrlEnv) (nenv : NetEnv)
    (c : OnlineConnection) (addr : Url) :
    (OnlineConnection.navigate_to uenv nenv c addr).conn.history = addr :: c.history := by
  unfold OnlineConnection.navigate_to
  rw [get_page_history]

/-- `OnlineConnection::back` on a nonempty history pops one entry. -/
theorem remote_back_history (uenv : UrlEnv) (nenv : NetEnv) (base : Url)
    (c : OnlineConnection) (h : c.history ≠ []) :
    (OnlineConnection.back uenv nenv base c).conn.history = c.history.tail := by
  cases hl : c.history with
  | nil => exact absurd hl h
  | cons x t =>
    unfold OnlineConnection.back
    rw [hl]
    simp only [List.isEmpty_cons, Bool.false_eq_true, if_false]
    rw [get_page_history]

/-! ## C1 -/

/-- Concrete environment for the C1 counterexample: every directory read
fails (e.g. the directory was deleted from under the browser). -/
def c1Env : FsEnv :=
  { readDir := fun _ => .error "directory was removed"
    metadata := fun _ => none }

/-- A local connection whose history holds one entry. -/
def c1Conn : LocalConnection :=
  { history := ["file:///root/sub"], init_dir := "file:///root" }

/-- C1 counterexample: `back()` on a connection with a NONEMPTY history
still fails when fetching the previous page fails, refuting "back() fails
exactly when the history stack is empty". -/
theorem C1_counterexample :
    (LocalConnection.back c1Env c1Conn).fst = .err "directory was removed" ∧
    c1Conn.history ≠ [] := by
  exact ⟨rfl, by decide⟩

/-- C1 (amended): for every connection (local or remote) and every URL,
`navigate_to` pushes the URL before fetching, so `current_address` equals
it afterwards even when the fetch fails; `back()` fails with the fixed
cannot-go-back error leaving the connection unchanged exactly when the
history is empty, and otherwise pops one entry and returns the fetch of
the new current address (which may itself fail); after `navigate_to u1`,
`navigate_to u2`, `back()`, the current address is `u1`. -/
theorem C1_navigation_history (env : FsEnv) (c : LocalConnection) (u u1 u2 : Url)
    (uenv : UrlEnv) (nenv : NetEnv) (base : Url) (rc : OnlineConnection)
    (v v1 v2 : Url) :
    ((LocalConnection.navigate_to env c u).snd.history = u :: c.history
      ∧ (LocalConnection.navigate_to env c u).snd.current_address = u)
    ∧ (LocalConnection.back env c
        = (.err "At directory root; cannot go back.", c) ↔ c.history = [])
    ∧ (c.history ≠ [] →
        (LocalConnection.back env c).snd.history = c.history.tail
        ∧ (LocalConnection.back env c).fst
          = LocalConnection.get_page env (c.history.tail.headD c.init_dir))
    ∧ ((LocalConnection.back env (LocalConnection.navigate_to env
          (LocalConnection.navigate_to env c u1).snd u2).snd).snd.current_address = u1)
    ∧ ((OnlineConnection.navigate_to uenv nenv rc v).conn.history = v :: rc.history
      ∧ OnlineConnection.current_address base
          (OnlineConnection.navigate_to uenv nenv rc v).conn = v)
    ∧ ((OnlineConnection.back uenv nenv base rc).res
        = .err (.strMsg "At ODPS root; cannot go back.") ↔ rc.history = [])
    ∧ (rc.history ≠ [] →
        (OnlineConnection.back uenv nenv base rc).conn.history = rc.history.tail)
    ∧ (OnlineConnection.current_address base
        (OnlineConnection.back uenv nenv base
          (OnlineConnection.navigate_to uenv nenv
            (OnlineConnection.navigate_to uenv nenv rc v1).conn v2).conn).conn = v1) := by
  refine ⟨⟨rfl, rfl⟩, ?_, ?_, rfl, ⟨remote_nav_history uenv nenv rc v, ?_⟩, ?_, ?_, ?_⟩
  · constructor
    · intro heq
      cases hl : c.history with
      | nil => rfl
      | cons x t =>
        exfalso
        have hsnd := congrArg Prod.snd heq
        have hh := congrArg LocalConnection.history hsnd
        rw [hl] at hh
        simp only [LocalConnection.back, hl, List.isEmpty_cons, Bool.false_eq_true,
          if_false] at hh
        exact List.cons_ne_self x t hh.symm
    · intro hl
      simp only [LocalConnection.back, hl, List.isEmpty_nil, if_true]
  · intro h
    cases hl : c.history with
    | nil => exact absurd hl h
    | cons x t =>
      constructor
      · simp only [LocalConnection.back, hl, List.isEmpty_cons, Bool.false_eq_true, if_false]
      · simp only [LocalConnection.back, hl, List.isEmpty_cons, Bool.false_eq_true, if_false]
        rfl
  · rw [OnlineConnection.current_address, remote_nav_history]
    rfl
  · constructor
    · intro heq
      cases hl : rc.history with
      | nil => rfl
      | cons x t =>
        exfalso
        rw [OnlineConnection.back, hl] at heq
        simp only [List.isEmpty_cons, Bool.false_eq_true, if_false] at heq
        exact get_page_no_strMsg uenv nenv _ _ _ heq
    · intro hl
      rw [OnlineConnection.back, hl]
      rfl
  · intro h
    exact remote_back_history uenv nenv base rc h
  · have h2 : ((OnlineConnection.navigate_to uenv nenv
        (OnlineConnection.navigate_to uenv nenv rc v1).conn v2).conn).history
        = v2 :: v1 :: rc.history := by
      rw [remote_nav_history, remote_nav_history]
    rw [OnlineConnection.current_address,
      remote_back_history _ _ _ _ (by rw [h2]; simp), h2]
    rfl

/-- C1 witness: the amended theorem applied at a concrete connection with
a nonempty history. -/
theorem C1_navigation_history_witness :
    (LocalConnection.back c1Env c1Conn).snd.history = ([] : List Url) := by
  exact ((C1_navigation_history c1Env c1Conn "file:///u" "file:///u1" "file:///u2"
    ⟨fun s => .ok s, fun b s => .ok (b ++ s)⟩ ⟨fun _ => .error "offline"⟩
    "https://s" ⟨[], [], none, "https://s"⟩ "https://v" "https://v1"
    "https://v2").2.2.1 (by decide)).1

/-! ## C2 -/

/-- A cached page survives any single `get_page` call. -/
theorem get_page_cache_mono (uenv : UrlEnv) (nenv : NetEnv)
    (c : OnlineConnection) (addr u : Url) (v : List EntryType)
    (h : cacheLookup u c.cache = some v) :
    cacheLookup u (OnlineConnection.get_page uenv nenv c addr).conn.cache = some v := by
  unfold OnlineConnection.get_page
  split
  · exact h
  · rename_i hmiss
    split
    · exact h
    · split
      · simp only []
        rw [cacheLookup]
        have hne : addr ≠ u := by
          intro he
          rw [he] at hmiss
          rw [hmiss] at h
          exact Option.noConfusion h
        rw [if_neg hne]
        exact h
      · exact h
      · exact h

/-- A cached page survives any single session operation. -/
theorem applyROp_cache_mono (uenv : UrlEnv) (nenv : NetEnv) (base : Url)
    (c : OnlineConnection) (op : ROp) (u : Url) (v : List EntryType)
    (h : cacheLookup u c.cache = some v) :
    cacheLookup u (applyROp uenv nenv base c op).cache = some v := by
  cases op with
  | getPage a =>
    exact get_page_cache_mono uenv nenv c a u v h
  | navigateTo a =>
    exact get_page_cache_mono uenv nenv { c with history := a :: c.history } a u v h
  | goBack =>
    simp only [applyROp]
    unfold OnlineConnection.back
    split
    · exact h
    · exact get_page_cache_mono uenv nenv _ _ u v h
  | searchFor q =>
    simp only [applyROp]
    unfold OnlineConnection.search
    split
    · split
      · exact h
      · exact get_page_cache_mono uenv nenv _ _ u v h
    · exact h

/-- A cached page survives a whole session of operations. -/
theorem runROps_cache_mono (uenv : UrlEnv) (nenv : NetEnv) (base : Url)
    (c : OnlineConnection) (ops : List ROp) (u : Url) (v : List EntryType)
    (h : cacheLookup u c.cache = some v) :
    cacheLookup u (runROps uenv nenv base c ops).cache = some v := by
  induction ops generalizing c with
  | nil => exact h
  | cons op rest ih =>
    exact ih (applyROp uenv nenv base c op) (applyROp_cache_mono uenv nenv base c op u v h)

/-- A cache hit short-circuits `get_page`: no request, no state change. -/
theorem get_page_cached (uenv : UrlEnv) (nenv : NetEnv)
    (c : OnlineConnection) (u : Url) (v : List EntryType)
    (h : cacheLookup u c.cache = some v) :
    OnlineConnection.get_page uenv nenv c u = ⟨.ok v, c, 0⟩ := by
  unfold OnlineConnection.get_page
  rw [h]

/-- C2 (confirmed): the first successful `get_page u` stores the
transformed entry list in the cache keyed by exactly `u`, and after any
further session operations whatsoever, `get_page u` returns the same
entry list without issuing any outbound HTTP request and without changing
the connection (the cache is never invalidated during the process
lifetime). -/
theorem C2_cache_consistency (uenv : UrlEnv) (nenv : NetEnv) (base : Url)
    (c : OnlineConnection) (u : Url) (v : List EntryType)
    (c1 : OnlineConnection) (r1 : Nat)
    (h : OnlineConnection.get_page uenv nenv c u = ⟨.ok v, c1, r1⟩) :
    cacheLookup u c1.cache = some v ∧
    ∀ ops : List ROp,
      OnlineConnection.get_page uenv nenv (runROps uenv nenv base c1 ops) u
        = ⟨.ok v, runROps uenv nenv base c1 ops, 0⟩ := by
  have hkey : cacheLookup u c1.cache = some v := by
    unfold OnlineConnection.get_page at h
    revert h
    split
    · rename_i d hd
      intro h
      have h1 := congrArg RemoteOut.res h
      have h2 := congrArg RemoteOut.conn h
      simp only [] at h1 h2
      rw [PRes.ok.injEq] at h1
      rw [← h2, hd, h1]
    · split
      · intro h
        exact absurd (congrArg RemoteOut.res h) (by simp)
      · split
        · rename_i processed hp
          intro h
          have h1 := congrArg RemoteOut.res h
          have h2 := congrArg RemoteOut.conn h
          simp only [] at h1 h2
          rw [PRes.ok.injEq] at h1
          rw [← h2]
          simp [cacheLookup, h1]
        · intro h
          exact absurd (congrArg RemoteOut.res h) (by simp)
        · intro h
          exact absurd (congrArg RemoteOut.res h) (by simp)
  refine ⟨hkey, fun ops => ?_⟩
  exact get_page_cached uenv nenv _ u v (runROps_cache_mono uenv nenv base c1 ops u v hkey)

/-- Concrete data for the C2 witness. -/
def w2Entry : AtomEntry :=
  { title := "Book", authors := [], summary := none, content := none,
    categories := [], links := [] }

/-- The transform of `w2Entry`. -/
def w2Entries : List EntryType :=
  [.OPDSEntry ⟨"Book", "", none, none, [], none, none⟩]

/-- URL oracles for the C2 witness: every string parses as itself. -/
def w2UEnv : UrlEnv := ⟨fun s => .ok s, fun b s => .ok (b ++ s)⟩

/-- Network oracle for the C2 witness: one feed page exists. -/
def w2NEnv : NetEnv :=
  ⟨fun u => if u = "https://s/feed" then .ok [w2Entry] else .error "404"⟩

/-- Fresh connection for the C2 witness. -/
def w2Conn : OnlineConnection := ⟨[], [], none, "https://s"⟩

/-- The connection after the first `get_page`. -/
def w2Conn1 : OnlineConnection :=
  ⟨[], [("https://s/feed", w2Entries)], none, "https://s"⟩

/-- C2 witness: after a concrete first fetch, a later `get_page` of the
same URL — across an intervening failed `back()` and a `get_page` of a
different URL — returns the same entries with zero requests. -/
theorem C2_cache_consistency_witness :
    cacheLookup "https://s/feed" w2Conn1.cache = some w2Entries ∧
    OnlineConnection.get_page w2UEnv w2NEnv
        (runROps w2UEnv w2NEnv "https://s" w2Conn1
          [ROp.goBack, ROp.getPage "https://s/other"]) "https://s/feed"
      = ⟨.ok w2Entries,
         runROps w2UEnv w2NEnv "https://s" w2Conn1
           [ROp.goBack, ROp.getPage "https://s/other"], 0⟩ := by
  have h := C2_cache_consistency w2UEnv w2NEnv "https://s" w2Conn "https://s/feed"
    w2Entries w2Conn1 1 (by rfl)
  exact ⟨h.1, h.2 [ROp.goBack, ROp.getPage "https://s/other"]⟩

/-! ## C10 -/

/-- C10 (confirmed): local `search` never returns an `Err` value: when
the directory re-read succeeds it returns `Ok` of exactly the re-read
entries whose title contains the query (case-sensitive substring), after
pushing the re-read address onto the history; when the re-read fails it
panics (the `unwrap` of the `navigate_to` result) instead of returning
the error. -/
theorem C10_local_search_total (env : FsEnv) (c : LocalConnection) (q : String) :
    (∀ e, (LocalConnection.search env c q).fst ≠ .err e) ∧
    (∀ entries, LocalConnection.get_page env c.current_address = .ok entries →
      LocalConnection.search env c q
        = (.ok (entries.filter (fun x => strContains (get_title_for_entry x) q)),
           { c with history := c.current_address :: c.history })) ∧
    (∀ e, LocalConnection.get_page env c.current_address = .err e →
      (LocalConnection.search env c q).fst
        = .panicked "called Result unwrap on an Err value") := by
  refine ⟨?_, ?_, ?_⟩
  · intro e
    unfold LocalConnection.search LocalConnection.navigate_to
    cases hg : LocalConnection.get_page env c.current_address <;> simp [hg]
  · intro entries hg
    unfold LocalConnection.search LocalConnection.navigate_to
    rw [hg]
  · intro e hg
    unfold LocalConnection.search LocalConnection.navigate_to
    rw [hg]

/-- Filesystem oracle for the C10 witness: one directory with two
entries, both files. -/
def w10Env : FsEnv :=
  { readDir := fun u => if u = "file:///dl" then .ok ["apple.txt", "banana"]
                        else .error "no such directory"
    metadata := fun _ => some true }

/-- Fresh local connection for the C10 witness. -/
def w10Conn : LocalConnection := { history := [], init_dir := "file:///dl" }

/-- C10 witness: searching `"an"` returns exactly the matching file and
pushes one history entry. -/
theorem C10_local_search_total_witness :
    LocalConnection.search w10Env w10Conn "an"
      = (.ok [.File "banana" "file:///dl/banana"],
         { history := ["file:///dl"], init_dir := "file:///dl" }) := by
  exact (C10_local_search_total w10Env w10Conn "an").2.1
    [.File "apple.txt" "file:///dl/apple.txt", .File "banana" "file:///dl/banana"]
    (by decide)

/-! ## C8 -/

/-- Exhaustive case analysis of `OnlineConnection::search`. -/
theorem search_cases (uenv : UrlEnv) (nenv : NetEnv)
    (c : OnlineConnection) (q : String) :
    (c.search_url = none ∧
      OnlineConnection.search uenv nenv c q
        = ⟨.err (.strMsg "Server does not have searching enabled."), c, 0⟩) ∨
    (∃ su e, c.search_url = some su ∧
      uenv.parseUrl (strReplace su "{searchTerms}" q) = .error e ∧
      OnlineConnection.search uenv nenv c q = ⟨.err (.urlParse e), c, 0⟩) ∨
    (∃ su tu, c.search_url = some su ∧
      uenv.parseUrl (strReplace su "{searchTerms}" q) = .ok tu ∧
      OnlineConnection.search uenv nenv c q
        = OnlineConnection.navigate_to uenv nenv c tu) := by
  unfold OnlineConnection.search
  split
  · rename_i su hs
    split
    · rename_i e hp
      exact Or.inr (Or.inl ⟨su, e, hs, hp, rfl⟩)
    · rename_i tu hp
      exact Or.inr (Or.inr ⟨su, tu, hs, hp, rfl⟩)
  · rename_i hs
    exact Or.inl ⟨hs, rfl⟩

/-- C8 (confirmed): remote `search(query)` fails with exactly the message
`"Server does not have searching enabled."` if and only if the connection
has no stored search template; with a template it substitutes the raw
query for every `{searchTerms}` occurrence (no URL-encoding), parses the
result as a URL (parse failures yield a parse error instead), and
performs `navigate_to` on the substituted URL, pushing it onto history. -/
theorem C8_remote_search (uenv : UrlEnv) (nenv : NetEnv)
    (c : OnlineConnection) (q : String) :
    (c.search_url = none →
      OnlineConnection.search uenv nenv c q
        = ⟨.err (.strMsg "Server does not have searching enabled."), c, 0⟩) ∧
    ((OnlineConnection.search uenv nenv c q).res
        = .err (.strMsg "Server does not have searching enabled.") →
      c.search_url = none) ∧
    (∀ su tu, c.search_url = some su →
      uenv.parseUrl (strReplace su "{searchTerms}" q) = .ok tu →
      OnlineConnection.search uenv nenv c q
          = OnlineConnection.navigate_to uenv nenv c tu ∧
      (OnlineConnection.search uenv nenv c q).conn.history = tu :: c.history) := by
  refine ⟨?_, ?_, ?_⟩
  · intro hn
    unfold OnlineConnection.search
    rw [hn]
  · intro hres
    rcases search_cases uenv nenv c q with ⟨hn, _⟩ | ⟨su, e, _, _, hsearch⟩
      | ⟨su, tu, _, _, hsearch⟩
    · exact hn
    · rw [hsearch] at hres
      exact absurd hres (by simp)
    · rw [hsearch] at hres
      exact absurd hres (get_page_no_strMsg uenv nenv _ _ _)
  · intro su tu hs hp
    rcases search_cases uenv nenv c q with ⟨hn, _⟩ | ⟨su2, e, hs2, hp2, _⟩
      | ⟨su2, tu2, hs2, hp2, hsearch⟩
    · rw [hs] at hn
      exact Option.noConfusion hn
    · rw [hs] at hs2
      injection hs2 with hsu
      subst hsu
      rw [hp] at hp2
      exact Except.noConfusion hp2
    · rw [hs] at hs2
      injection hs2 with hsu
      subst hsu
      rw [hp] at hp2
      injection hp2 with htu
      subst htu
      rw [hsearch]
      exact ⟨rfl, remote_nav_history uenv nenv c tu⟩

/-- Remote connection for the C8 witness, carrying the spec's S5 search
template. -/
def w8Conn : OnlineConnection :=
  ⟨[], [], some "https://ex.org/search?q={searchTerms}", "https://ex.org"⟩

/-- C8 witness: the S5 scenario — `search("hello world")` triggers
`navigate_to` on the literally substituted URL. -/
theorem C8_remote_search_witness :
    OnlineConnection.search w2UEnv w2NEnv w8Conn "hello world"
        = OnlineConnection.navigate_to w2UEnv w2NEnv w8Conn
            "https://ex.org/search?q=hello world" ∧
    (OnlineConnection.search w2UEnv w2NEnv w8Conn "hello world").conn.history
        = ["https://ex.org/search?q=hello world"] := by
  exact (C8_remote_search w2UEnv w2NEnv w8Conn "hello world").2.2
    "https://ex.org/search?q={searchTerms}" "https://ex.org/search?q=hello world"
    (by rfl) (by rfl)

/-! ## C7 -/

/-- Keyring with no stored entries at all. -/
def c7Keyring : Keyring := ⟨fun _ _ => .error .noEntry⟩

/-- A server with a username configured. -/
def c7Server : Server := ⟨some "alice", "https://books.example"⟩

/-- C7 counterexample: with a username present but no keyring entry,
`get_password` returns the `NoEntry` error — refuting "a missing keyring
entry does not make get_password return an error" (the tolerance for
`NoEntry` lives in the caller, `Controller::connect_to_servers`). -/
theorem C7_counterexample :
    Server.get_password c7Keyring c7Server = .error .noEntry := by rfl

/-- Exhaustive case analysis of `Server::get_password`. -/
theorem get_password_cases (kr : Keyring) (s : Server) :
    (s.username = none ∧ Server.get_password kr s = .ok none) ∨
    (∃ u e, s.username = some u ∧
      kr.get "ncopds" (u ++ "@" ++ s.base_url) = .error e ∧
      Server.get_password kr s = .error e) ∨
    (∃ u, s.username = some u ∧
      kr.get "ncopds" (u ++ "@" ++ s.base_url) = .ok "" ∧
      Server.get_password kr s = .ok none) ∨
    (∃ u p, s.username = some u ∧
      kr.get "ncopds" (u ++ "@" ++ s.base_url) = .ok p ∧ p ≠ "" ∧
      Server.get_password kr s = .ok (some p)) := by
  unfold Server.get_password
  split
  · rename_i u hu
    split
    · rename_i e he
      exact Or.inr (Or.inl ⟨u, e, hu, he, rfl⟩)
    · rename_i p hp
      by_cases hpe : p = ""
      · subst hpe
        refine Or.inr (Or.inr (Or.inl ⟨u, hu, hp, ?_⟩))
        simp
      · refine Or.inr (Or.inr (Or.inr ⟨u, p, hu, hp, hpe, ?_⟩))
        simp [hpe]
  · rename_i hu
    exact Or.inl ⟨hu, rfl⟩

/-- C7 (amended): `get_password` returns absent when the server has no
username; with a username it looks up the keyring entry
`"{username}@{base_url}"` under service `"ncopds"` and propagates EVERY
keyring error — including "no entry" — as a failure; an empty stored
password is returned as absent, and a nonempty one as present. -/
theorem C7_get_password (kr : Keyring) (s : Server) :
    (s.username = none → Server.get_password kr s = .ok none) ∧
    (∀ u, s.username = some u →
      (∀ e, kr.get "ncopds" (u ++ "@" ++ s.base_url) = .error e →
        Server.get_password kr s = .error e) ∧
      (kr.get "ncopds" (u ++ "@" ++ s.base_url) = .ok "" →
        Server.get_password kr s = .ok none) ∧
      (∀ p, kr.get "ncopds" (u ++ "@" ++ s.base_url) = .ok p → p ≠ "" →
        Server.get_password kr s = .ok (some p))) := by
  rcases get_password_cases kr s with ⟨hn, hres⟩ | ⟨u2, e2, hu2, he2, hres⟩
    | ⟨u2, hu2, he2, hres⟩ | ⟨u2, p2, hu2, he2, hne2, hres⟩
  · refine ⟨fun _ => hres, fun u hu => ?_⟩
    rw [hn] at hu
    exact Option.noConfusion hu
  · refine ⟨fun h => ?_, fun u hu => ?_⟩
    · rw [h] at hu2
      exact Option.noConfusion hu2
    · rw [hu] at hu2
      injection hu2 with huu
      subst huu
      refine ⟨fun e he => ?_, fun he => ?_, fun p hpp _ => ?_⟩
      · rw [he] at he2
        injection he2 with hee
        subst hee
        exact hres
      · rw [he] at he2
        exact Except.noConfusion he2
      · rw [hpp] at he2
        exact Except.noConfusion he2
  · refine ⟨fun h => ?_, fun u hu => ?_⟩
    · rw [h] at hu2
      exact Option.noConfusion hu2
    · rw [hu] at hu2
      injection hu2 with huu
      subst huu
      refine ⟨fun e he => ?_, fun _ => hres, fun p hpp hpne => ?_⟩
      · rw [he] at he2
        exact Except.noConfusion he2
      · rw [hpp] at he2
        injection he2 with hee
        exact absurd hee hpne
  · refine ⟨fun h => ?_, fun u hu => ?_⟩
    · rw [h] at hu2
      exact Option.noConfusion hu2
    · rw [hu] at hu2
      injection hu2 with huu
      subst huu
      refine ⟨fun e he => ?_, fun he => ?_, fun p hpp _ => ?_⟩
      · rw [he] at he2
        exact Except.noConfusion he2
      · rw [he] at he2
        injection he2 with hee
        exact absurd hee.symm hne2
      · rw [hpp] at he2
        injection he2 with hee
        rw [hee]
        exact hres

/-- Keyring for the C7 witness: one stored password. -/
def w7Keyring : Keyring :=
  ⟨fun service key =>
    if service = "ncopds" && key = "alice@https://books.example" then .ok "hunter2"
    else .error .noEntry⟩

/-- C7 witness: a configured username with a stored nonempty password is
returned as present. -/
theorem C7_get_password_witness :
    Server.get_password w7Keyring c7Server = .ok (some "hunter2") := by
  exact ((C7_get_password w7Keyring c7Server).2 "alice" (by rfl)).2.2
    "hunter2" (by rfl) (by decide)

/-! ## C6 -/

/-- Environment for the C6 counterexample, part 1: the sniffer does not
recognise the bytes. -/
def c6EnvPanic : SaveEnv :=
  { joinPath := fun dir fname => some (dir ++ "/" ++ fname)
    inferExt := fun _ => none
    createFile := fun _ => .ok () }

/-- Environment for the C6 counterexample, part 2: the sniffer agrees
with the filename but file creation fails. -/
def c6EnvFull : SaveEnv :=
  { joinPath := fun dir fname => some (dir ++ "/" ++ fname)
    inferExt := fun _ => some "epub"
    createFile := fun _ => .error "disk full" }

/-- C6 counterexample: (1) bytes the sniffer does not recognise make
`save_as` panic (the `expect`), so the claimed equivalence does not hold
for every byte sequence; (2) even when the inferred extension equals the
filename's extension, `save_as` can fail (file creation error), refuting
the "succeeds if" direction. -/
theorem C6_counterexample :
    save_as c6EnvPanic [] "file:///dl" "a.epub" = (.panicked "file type is known", []) ∧
    save_as c6EnvFull [7] "file:///dl" "a.epub" = (.err "disk full", []) ∧
    c6EnvFull.inferExt [7] = some "epub" ∧
    pathExtension "file:///dl/a.epub" = some "epub" := by
  exact ⟨rfl, rfl, rfl, rfl⟩

/-- C6 (amended): provided the joined path exists, `save_as` panics when
the sniffer does not recognise the bytes, and panics when the joined
filename has no extension; otherwise it fails with the
"file was not downloaded properly" diagnostic and performs no filesystem
effect exactly when the sniffed extension differs from the filename's;
on agreement it attempts creation, succeeding and writing the bytes when
creation succeeds and failing with the creation error (no effects)
otherwise. -/
theorem C6_save_as (env : SaveEnv) (data : List Nat) (dir : Url) (fname fp : String)
    (hj : env.joinPath dir fname = some fp) :
    (env.inferExt data = none →
      save_as env data dir fname = (.panicked "file type is known", [])) ∧
    (∀ k, env.inferExt data = some k →
      (pathExtension fp = none →
        save_as env data dir fname
          = (.panicked "called Option unwrap on a None value", [])) ∧
      (∀ e, pathExtension fp = some e → k ≠ e →
        save_as env data dir fname
          = (.err ("Could not save " ++ fname ++
              ". File was not downloaded properly. File was returned from the server as a "
              ++ k), [])) ∧
      (∀ e, pathExtension fp = some e → k = e →
        (env.createFile fp = .ok () →
          save_as env data dir fname = (.ok (), [.created fp, .wrote data])) ∧
        (∀ m, env.createFile fp = .error m →
          save_as env data dir fname = (.err m, [])))) := by
  refine ⟨?_, ?_⟩
  · intro hi
    simp only [save_as, hj, hi]
  · intro k hk
    refine ⟨?_, ?_, ?_⟩
    · intro he
      simp only [save_as, hj, hk, he]
    · intro e he hne
      simp only [save_as, hj, hk, he, if_pos hne]
    · intro e he heq
      subst heq
      refine ⟨?_, ?_⟩
      · intro hc
        simp only [save_as, hj, hk, he, if_neg (not_not_intro rfl), hc]
      · intro m hc
        simp only [save_as, hj, hk, he, if_neg (not_not_intro rfl), hc]

/-- Environment for the C6 witness: agreement and a working filesystem. -/
def w6Env : SaveEnv :=
  { joinPath := fun dir fname => some (dir ++ "/" ++ fname)
    inferExt := fun d => if d = [80, 75, 3, 4] then some "epub" else none
    createFile := fun _ => .ok () }

/-- C6 witness: recognised EPUB bytes saved under a matching filename
create the file and write the bytes. -/
theorem C6_save_as_witness :
    save_as w6Env [80, 75, 3, 4] "file:///dl" "book.epub"
      = (.ok (), [.created "file:///dl/book.epub", .wrote [80, 75, 3, 4]]) := by
  exact (((C6_save_as w6Env [80, 75, 3, 4] "file:///dl" "book.epub"
    "file:///dl/book.epub" (by rfl)).2 "epub" (by rfl)).2.2
    "epub" (by rfl) (by rfl)).1 (by rfl)

/-! ## C9 -/

/-- C9: evaluation of the periodic-refresh guard.  `refresh_timer` is
already denominated in frames (`30 * 5 * 60 = 9000`, per its
"fps * time in seconds" comment), but the loop guard multiplies by the
frame rate again, so the tick fires every `270000` frames — not every
`9000` frames as the spec states — and only when the active tab is not
`"local"`. -/
theorem C9_periodic_refresh_eval :
    refresh_timer = 9000 ∧
    30 * refresh_timer = 270000 ∧
    periodic_refresh_fires 9000 "catalog" = false ∧
    periodic_refresh_fires 270000 "catalog" = true ∧
    periodic_refresh_fires 270000 "local" = false := by
  refine ⟨rfl, rfl, ?_, ?_, ?_⟩ <;> decide

/-! ## C3 -/

/-- C3: (1) at a frame where the periodic refresh fires on a non-local
tab, a network error from the active connection's `get_page` propagates
out of the run-loop body (the `?` in `self.refresh().await?`), producing
no UI message and terminating `run`; (2) by contrast, an error returned
by a message handler is converted into a `ShowInfo("Error", ..)` UI
message and the loop continues. -/
theorem C3_refresh_error_propagates :
    runFrameBody [] [] "catalog" 270000 "https://catalog/feed" "Updated"
        (.error (.net "connection refused"))
      = .error (.net "connection refused") ∧
    runFrameBody [.error (.strMsg "Unsupported acquisition type: buy")] [] "catalog" 1
        "https://catalog/feed" "Updated" (.ok [])
      = .ok [.showInfo "Error" "Unsupported acquisition type: buy"] := by
  exact ⟨rfl, rfl⟩

/-! ## C4 -/

/-- Mime type marking a navigable feed link. -/
def isAtomMime (mt : String) : Bool := strContains mt "application/atom+xml"

/-- Mime type marking a cover-image link. -/
def isImageMime (mt : String) : Bool := strContains mt "image"

/-- The (resolved href, mime type) view of a link, meaningful when the
link resolves and carries a mime type. -/
def resolvedLink (env : UrlEnv) (base : Url) (l : AtomLink) : Url × String :=
  ((parse_href env l.href base).toOption.getD "", l.mime_type.getD "")

/-- A link whose href resolves and whose mime type is present. -/
def linkOk (env : UrlEnv) (base : Url) (l : AtomLink) : Bool :=
  (parse_href env l.href base).toOption.isSome && l.mime_type.isSome

/-- The download pairs the link loop accumulates: links that are neither
atom feeds nor images, in order. -/
def downloadLinks (env : UrlEnv) (base : Url) (ls : List AtomLink) : List (Url × String) :=
  (ls.map (resolvedLink env base)).filter
    (fun p => !isAtomMime p.2 && !isImageMime p.2)

/-- The final `href` field: the last atom-typed link, if any. -/
def atomHref (env : UrlEnv) (base : Url) (ls : List AtomLink) : Option Url :=
  ((((ls.map (resolvedLink env base)).filter (fun p => isAtomMime p.2))).map Prod.fst).getLast?

/-- The final `image` field: the last image-typed (non-atom) link. -/
def imageHref (env : UrlEnv) (base : Url) (ls : List AtomLink) : Option Url :=
  ((((ls.map (resolvedLink env base)).filter
      (fun p => !isAtomMime p.2 && isImageMime p.2))).map Prod.fst).getLast?

/-- The final `unsupported` field: the last unsupported-acquisition rel. -/
def unsupRel (ls : List AtomLink) : Option String :=
  ((ls.filter (fun l => relUnsupported l.rel)).map (fun l => l.rel)).getLast?

theorem option_or_none {α : Type} (o : Option α) : o.or none = o := by
  cases o <;> rfl

theorem option_or_some_absorb {α : Type} (a : Option α) (b : α) (c : Option α) :
    (a.or (some b)).or c = a.or (some b) := by
  cases a <;> rfl

theorem getLast?_cons_or {α : Type} (a : α) (l : List α) :
    (a :: l).getLast? = l.getLast?.or (some a) := by
  cases l with
  | nil => rfl
  | cons b bs =>
    rw [List.getLast?_cons_cons]
    obtain ⟨z, hz⟩ := Option.isSome_iff_exists.mp
      (List.getLast?_isSome.mpr (List.cons_ne_nil b bs))
    rw [hz]
    rfl

/-- Closed form of the link loop when every link resolves and carries a
mime type: downloads are appended in order, and the `href`, `image` and
`unsupported` accumulators are last-wins. -/
theorem processLinks_ok (env : UrlEnv) (base : Url) :
    ∀ (ls : List AtomLink) (dl : List (Url × String)) (im hr : Option Url)
      (un : Option String),
    (∀ l ∈ ls, linkOk env base l = true) →
    processLinks env base ls dl im hr un
      = .ok (dl ++ downloadLinks env base ls)
            ((imageHref env base ls).or im)
            ((atomHref env base ls).or hr)
            ((unsupRel ls).or un) := by
  intro ls
  induction ls with
  | nil =>
    intro dl im hr un _
    simp [processLinks, downloadLinks, imageHref, atomHref, unsupRel]
  | cons l rest ih =>
    intro dl im hr un h
    have hl := h l (List.mem_cons_self l rest)
    have hrest := fun l2 hl2 => h l2 (List.mem_cons_of_mem l hl2)
    rw [linkOk, Bool.and_eq_true] at hl
    obtain ⟨hp, hm⟩ := hl
    cases hparse : parse_href env l.href base with
    | error e =>
      rw [hparse] at hp
      simp [Except.toOption] at hp
    | ok u =>
      cases hmime : l.mime_type with
      | none =>
        rw [hmime] at hm
        simp at hm
      | some mt =>
        have hres : resolvedLink env base l = (u, mt) := by
          simp [resolvedLink, hparse, hmime, Except.toOption]
        simp only [processLinks, hparse, hmime]
        cases hatom : strContains mt "application/atom+xml" with
        | true =>
          rw [if_pos rfl]
          rw [ih _ _ _ _ hrest]
          have him : imageHref env base (l :: rest) = imageHref env base rest := by
            simp [imageHref, hres, isAtomMime, hatom]
          have hdl : downloadLinks env base (l :: rest) = downloadLinks env base rest := by
            simp [downloadLinks, hres, isAtomMime, hatom]
          have hhr : atomHref env base (l :: rest)
              = (atomHref env base rest).or (some u) := by
            simp [atomHref, hres, isAtomMime, hatom, getLast?_cons_or]
          rw [him, hdl, hhr, option_or_some_absorb]
          cases hrel : relUnsupported l.rel with
          | true =>
            have hun : unsupRel (l :: rest) = (unsupRel rest).or (some l.rel) := by
              simp [unsupRel, hrel, getLast?_cons_or]
            rw [hun, option_or_some_absorb]
            simp [hrel]
          | false =>
            have hun : unsupRel (l :: rest) = unsupRel rest := by
              simp [unsupRel, hrel]
            rw [hun]
            simp [hrel]
        | false =>
          rw [if_neg Bool.false_ne_true]
          cases himg : strContains mt "image" with
          | true =>
            rw [if_pos rfl]
            rw [ih _ _ _ _ hrest]
            have hdl : downloadLinks env base (l :: rest) = downloadLinks env base rest := by
              simp [downloadLinks, hres, isAtomMime, isImageMime, hatom, himg]
            have hhr : atomHref env base (l :: rest) = atomHref env base rest := by
              simp [atomHref, hres, isAtomMime, hatom]
            have him : imageHref env base (l :: rest)
                = (imageHref env base rest).or (some u) := by
              simp [imageHref, hres, isAtomMime, isImageMime, hatom, himg, getLast?_cons_or]
            rw [hdl, hhr, him, option_or_some_absorb]
            cases hrel : relUnsupported l.rel with
            | true =>
              have hun : unsupRel (l :: rest) = (unsupRel rest).or (some l.rel) := by
                simp [unsupRel, hrel, getLast?_cons_or]
              rw [hun, option_or_some_absorb]
              simp [hrel]
            | false =>
              have hun : unsupRel (l :: rest) = unsupRel rest := by
                simp [unsupRel, hrel]
              rw [hun]
              simp [hrel]
          | false =>
            rw [if_neg Bool.false_ne_true]
            rw [ih _ _ _ _ hrest]
            have hdl : downloadLinks env base (l :: rest)
                = (u, mt) :: downloadLinks env base rest := by
              simp [downloadLinks, hres, isAtomMime, isImageMime, hatom, himg]
            have hhr : atomHref env base (l :: rest) = atomHref env base rest := by
              simp [atomHref, hres, isAtomMime, hatom]
            have him : imageHref env base (l :: rest) = imageHref env base rest := by
              simp [imageHref, hres, isAtomMime, isImageMime, hatom, himg]
            rw [hdl, hhr, him, List.append_cons]
            cases hrel : relUnsupported l.rel with
            | true =>
              have hun : unsupRel (l :: rest) = (unsupRel rest).or (some l.rel) := by
                simp [unsupRel, hrel, getLast?_cons_or]
              rw [hun, option_or_some_absorb]
              simp [hrel]
            | false =>
              have hun : unsupRel (l :: rest) = unsupRel rest := by
                simp [unsupRel, hrel]
              rw [hun]
              simp [hrel]

/-- The link loop panics (via the `expect` on the mime type) as soon as
it reaches a link without a mime type, provided the links before it are
well formed and the offending link's href resolves. -/
theorem processLinks_panic (env : UrlEnv) (base : Url) :
    ∀ (pre : List AtomLink) (l : AtomLink) (post : List AtomLink)
      (dl : List (Url × String)) (im hr : Option Url) (un : Option String),
    (∀ l2 ∈ pre, linkOk env base l2 = true) →
    (parse_href env l.href base).toOption.isSome = true →
    l.mime_type = none →
    processLinks env base (pre ++ l :: post) dl im hr un
      = .panicked "malformed feed, expected mime-type" := by
  intro pre
  induction pre with
  | nil =>
    intro l post dl im hr un _ hp hm
    cases hparse : parse_href env l.href base with
    | error e =>
      rw [hparse] at hp
      simp [Except.toOption] at hp
    | ok u =>
      simp only [List.nil_append, processLinks, hparse, hm]
  | cons p pre' ih =>
    intro l post dl im hr un h hp hm
    have hpok := h p (List.mem_cons_self p pre')
    have hrest := fun l2 hl2 => h l2 (List.mem_cons_of_mem p hl2)
    rw [linkOk, Bool.and_eq_true] at hpok
    obtain ⟨hp2, hm2⟩ := hpok
    cases hparse : parse_href env p.href base with
    | error e =>
      rw [hparse] at hp2
      simp [Except.toOption] at hp2
    | ok u =>
      cases hmime : p.mime_type with
      | none =>
        rw [hmime] at hm2
        simp at hm2
      | some mt =>
        simp only [List.cons_append, processLinks, hparse, hmime]
        cases hatom : strContains mt "application/atom+xml" with
        | true =>
          rw [if_pos rfl]
          exact ih l post dl im (some u) _ hrest hp hm
        | false =>
          rw [if_neg Bool.false_ne_true]
          cases himg : strContains mt "image" with
          | true =>
            rw [if_pos rfl]
            exact ih l post dl (some u) hr _ hrest hp hm
          | false =>
            rw [if_neg Bool.false_ne_true]
            exact ih l post (dl ++ [(u, mt)]) im hr _ hrest hp hm

/-- An entry with a single link that lacks a mime type. -/
def c4Entry : AtomEntry :=
  { title := "Book", authors := [], summary := none, content := none,
    categories := [], links := [⟨"/feed/1", "subsection", none⟩] }

/-- C4 counterexample: a link without a mime type makes the derivation
PANIC (the `expect("malformed feed, expected mime-type")`), not return a
parse-error value as the claim states (`w2UEnv` parses every href, so the
panic point is reached). -/
theorem C4_counterexample :
    process_opds_entry w2UEnv c4Entry "https://ex.org"
      = .panicked "malformed feed, expected mime-type" := by rfl

/-- C4 (amended): a link whose mime type is absent makes the derivation
panic with `"malformed feed, expected mime-type"` (provided the preceding
links are well formed and its href resolves); when every link resolves
and carries a mime type, the derivation succeeds and classifies each link
by mime type — containing `"application/atom+xml"` sets `href` (last
wins), else containing `"image"` sets `image` (last wins), else the
(resolved url, mime type) pair is appended in order to `downloads`. -/
theorem C4_opds_derivation (env : UrlEnv) (entry : AtomEntry) (base : Url)
    (det : String) (hdet : detailsOf entry = some det) :
    (∀ pre l post, entry.links = pre ++ l :: post →
      (∀ l2 ∈ pre, linkOk env base l2 = true) →
      (parse_href env l.href base).toOption.isSome = true →
      l.mime_type = none →
      process_opds_entry env entry base
        = .panicked "malformed feed, expected mime-type") ∧
    ((∀ l ∈ entry.links, linkOk env base l = true) →
      process_opds_entry env entry base
        = .ok (.OPDSEntry {
            title := entry.title
            author := authorOf entry
            details := det
            unsupported := unsupRel entry.links
            downloads := downloadLinks env base entry.links
            image := imageHref env base entry.links
            href := atomHref env base entry.links })) := by
  constructor
  · intro pre l post hsplit hpre hp hm
    have hplinks := processLinks_panic env base pre l post [] none none none hpre hp hm
    rw [← hsplit] at hplinks
    simp only [process_opds_entry, hdet, hplinks]
  · intro hall
    have hplinks := processLinks_ok env base entry.links [] none none none hall
    simp only [process_opds_entry, hdet, hplinks, option_or_none, List.nil_append]

/-- URL oracle for the C4 witness: strings with a scheme separator parse
as themselves, others are relative and join onto the base. -/
def w4UEnv : UrlEnv :=
  ⟨fun s => if strContains s "://" then .ok s else .error .relativeUrlWithoutBase,
   fun b s => .ok (b ++ s)⟩

/-- The spec's S3 entry: one navigable atom link and one epub acquisition
link, both relative. -/
def w4Entry : AtomEntry :=
  { title := "Book", authors := [], summary := none, content := none,
    categories := [],
    links := [⟨"/feed/1", "subsection", some "application/atom+xml"⟩,
              ⟨"/dl/1.epub", "http://opds-spec.org/acquisition",
                some "application/epub+zip"⟩] }

/-- C4 witness: the S3 scenario derives the expected `OPDSEntry`. -/
theorem C4_opds_derivation_witness :
    process_opds_entry w4UEnv w4Entry "https://ex.org"
      = .ok (.OPDSEntry {
          title := "Book"
          author := none
          details := ""
          unsupported := none
          downloads := [("https://ex.org/dl/1.epub", "application/epub+zip")]
          image := none
          href := some "https://ex.org/feed/1" }) := by
  exact (C4_opds_derivation w4UEnv w4Entry "https://ex.org" "" (by rfl)).2 (by decide)

/-! ## C5 -/

/-- The guard of the discovery loop: rel is `"search"` and the mime type
contains `"opensearchdescription"`. -/
def searchLinkMatches (l : AtomLink) : Bool :=
  match l.mime_type with
  | none => false
  | some mt => l.rel == "search" && strContains mt "opensearchdescription"

/-- Outcome of the per-link descriptor pipeline: a resolved template, a
failure after href resolution (fetch, descriptor parse, or template
resolution), or an unresolvable href (which the source `expect`s on). -/
inductive PipeRes where
  | ok (t : Url)
  | failed
  | badHref
deriving DecidableEq, Repr

/-- The descriptor pipeline run for one matching link. -/
def linkPipeline (uenv : UrlEnv) (oenv : OsdEnv) (dom : Url) (l : AtomLink) : PipeRes :=
  match parse_href uenv l.href dom with
  | .error _ => .badHref
  | .ok u =>
    match oenv.fetchOsd u with
    | none => .failed
    | some osd =>
      match parse_osd osd with
      | none => .failed
      | some search_str =>
        match parse_href uenv search_str dom with
        | .error _ => .failed
        | .ok su => .ok su

/-- Whether the pipeline produced a template. -/
def pipeOk : PipeRes → Bool
  | .ok _ => true
  | .failed => false
  | .badHref => false

/-- The templates of the matching links whose pipeline succeeds, in link
order. -/
def matchTemplates (uenv : UrlEnv) (oenv : OsdEnv) (dom : Url)
    (links : List AtomLink) : List Url :=
  (links.filter (fun l => searchLinkMatches l)).filterMap
    (fun l =>
      match linkPipeline uenv oenv dom l with
      | .ok t => some t
      | .failed => none
      | .badHref => none)

/-- One step of the discovery loop, phrased through the pipeline. -/
theorem findSearchUrlAux_cons (uenv : UrlEnv) (oenv : OsdEnv) (dom : Url)
    (l : AtomLink) (rest : List AtomLink) (acc : Option String) :
    findSearchUrlAux uenv oenv dom (l :: rest) acc
      = if searchLinkMatches l then
          match linkPipeline uenv oenv dom l with
          | .badHref => .panicked
          | .failed => .absent
          | .ok su => findSearchUrlAux uenv oenv dom rest (some su)
        else findSearchUrlAux uenv oenv dom rest acc := by
  cases hm : l.mime_type with
  | none =>
    simp only [findSearchUrlAux, hm, searchLinkMatches]
    rw [if_neg Bool.false_ne_true]
  | some mt =>
    simp only [findSearchUrlAux, hm, searchLinkMatches, linkPipeline]
    cases hcond : (l.rel == "search" && strContains mt "opensearchdescription") with
    | false =>
      rw [if_neg Bool.false_ne_true, if_neg Bool.false_ne_true]
    | true =>
      rw [if_pos rfl, if_pos rfl]
      cases hparse : parse_href uenv l.href dom with
      | error e => simp only [hparse]
      | ok u =>
        simp only [hparse]
        cases hf : oenv.fetchOsd u with
        | none => simp only [hf]
        | some osd =>
          simp only [hf]
          cases hosd : parse_osd osd with
          | none => simp only [hosd]
          | some search_str =>
            simp only [hosd]
            cases hp2 : parse_href uenv search_str dom with
            | error e => simp only [hp2]
            | ok su => simp only [hp2]

/-- With no matching link the loop just reports the accumulator. -/
theorem findSearchUrlAux_nomatch (uenv : UrlEnv) (oenv : OsdEnv) (dom : Url) :
    ∀ (links : List AtomLink) (acc : Option String),
    (∀ l ∈ links, searchLinkMatches l = false) →
    findSearchUrlAux uenv oenv dom links acc
      = match acc with
        | some t => .found t
        | none => .absent := by
  intro links
  induction links with
  | nil => intro acc _; rfl
  | cons l rest ih =>
    intro acc h
    rw [findSearchUrlAux_cons,
      if_neg (by rw [h l (List.mem_cons_self l rest)]; exact Bool.false_ne_true)]
    exact ih acc (fun l2 hl2 => h l2 (List.mem_cons_of_mem l hl2))

/-- When every matching link's pipeline succeeds, the loop reports the
LAST matching link's template, falling back to the accumulator. -/
theorem findSearchUrlAux_all_ok (uenv : UrlEnv) (oenv : OsdEnv) (dom : Url) :
    ∀ (links : List AtomLink) (acc : Option String),
    (∀ l ∈ links, searchLinkMatches l = true →
      pipeOk (linkPipeline uenv oenv dom l) = true) →
    findSearchUrlAux uenv oenv dom links acc
      = match (matchTemplates uenv oenv dom links).getLast? with
        | some t => .found t
        | none =>
          match acc with
          | some t => .found t
          | none => .absent := by
  intro links
  induction links with
  | nil => intro acc _; rfl
  | cons l rest ih =>
    intro acc h
    have hrest := fun l2 hl2 => h l2 (List.mem_cons_of_mem l hl2)
    rw [findSearchUrlAux_cons]
    cases hm : searchLinkMatches l with
    | false =>
      rw [if_neg Bool.false_ne_true]
      have hT : matchTemplates uenv oenv dom (l :: rest)
          = matchTemplates uenv oenv dom rest := by
        simp [matchTemplates, hm]
      rw [hT]
      exact ih acc hrest
    | true =>
      rw [if_pos rfl]
      have hok := h l (List.mem_cons_self l rest) hm
      obtain ⟨t, hpipe⟩ : ∃ t, linkPipeline uenv oenv dom l = .ok t := by
        revert hok
        cases linkPipeline uenv oenv dom l with
        | ok t => exact fun _ => ⟨t, rfl⟩
        | failed => intro hok; simp [pipeOk] at hok
        | badHref => intro hok; simp [pipeOk] at hok
      have hT : matchTemplates uenv oenv dom (l :: rest)
          = t :: matchTemplates uenv oenv dom rest := by
        simp [matchTemplates, hm, hpipe]
      rw [hpipe]
      show findSearchUrlAux uenv oenv dom rest (some t) = _
      rw [hT, getLast?_cons_or, ih (some t) hrest]
      cases (matchTemplates uenv oenv dom rest).getLast? <;> rfl

/-- A matching link with an unresolvable href panics, provided the
matching links before it all succeed. -/
theorem findSearchUrlAux_panic (uenv : UrlEnv) (oenv : OsdEnv) (dom : Url)
    (l : AtomLink) (post : List AtomLink) :
    ∀ (pre : List AtomLink) (acc : Option String),
    (∀ l2 ∈ pre, searchLinkMatches l2 = true →
      pipeOk (linkPipeline uenv oenv dom l2) = true) →
    searchLinkMatches l = true →
    linkPipeline uenv oenv dom l = .badHref →
    findSearchUrlAux uenv oenv dom (pre ++ l :: post) acc = .panicked := by
  intro pre
  induction pre with
  | nil =>
    intro acc _ hm hbad
    rw [List.nil_append, findSearchUrlAux_cons, if_pos hm, hbad]
  | cons p pre' ih =>
    intro acc h hm hbad
    have hrest := fun l2 hl2 => h l2 (List.mem_cons_of_mem p hl2)
    rw [List.cons_append, findSearchUrlAux_cons]
    cases hmp : searchLinkMatches p with
    | false =>
      rw [if_neg Bool.false_ne_true]
      exact ih acc hrest hm hbad
    | true =>
      rw [if_pos rfl]
      have hok := h p (List.mem_cons_self p pre') hmp
      obtain ⟨t, hpipe⟩ : ∃ t, linkPipeline uenv oenv dom p = .ok t := by
        revert hok
        cases linkPipeline uenv oenv dom p with
        | ok t => exact fun _ => ⟨t, rfl⟩
        | failed => intro hok; simp [pipeOk] at hok
        | badHref => intro hok; simp [pipeOk] at hok
      rw [hpipe]
      show findSearchUrlAux uenv oenv dom (pre' ++ l :: post) (some t) = _
      exact ih (some t) hrest hm hbad

/-- A matching link whose pipeline fails after href resolution makes the
whole discovery return absent immediately, provided the matching links
before it all succeed. -/
theorem findSearchUrlAux_failed (uenv : UrlEnv) (oenv : OsdEnv) (dom : Url)
    (l : AtomLink) (post : List AtomLink) :
    ∀ (pre : List AtomLink) (acc : Option String),
    (∀ l2 ∈ pre, searchLinkMatches l2 = true →
      pipeOk (linkPipeline uenv oenv dom l2) = true) →
    searchLinkMatches l = true →
    linkPipeline uenv oenv dom l = .failed →
    findSearchUrlAux uenv oenv dom (pre ++ l :: post) acc = .absent := by
  intro pre
  induction pre with
  | nil =>
    intro acc _ hm hfail
    rw [List.nil_append, findSearchUrlAux_cons, if_pos hm, hfail]
  | cons p pre' ih =>
    intro acc h hm hfail
    have hrest := fun l2 hl2 => h l2 (List.mem_cons_of_mem p hl2)
    rw [List.cons_append, findSearchUrlAux_cons]
    cases hmp : searchLinkMatches p with
    | false =>
      rw [if_neg Bool.false_ne_true]
      exact ih acc hrest hm hfail
    | true =>
      rw [if_pos rfl]
      have hok := h p (List.mem_cons_self p pre') hmp
      obtain ⟨t, hpipe⟩ : ∃ t, linkPipeline uenv oenv dom p = .ok t := by
        revert hok
        cases linkPipeline uenv oenv dom p with
        | ok t => exact fun _ => ⟨t, rfl⟩
        | failed => intro hok; simp [pipeOk] at hok
        | badHref => intro hok; simp [pipeOk] at hok
      rw [hpipe]
      show findSearchUrlAux uenv oenv dom (pre' ++ l :: post) (some t) = _
      exact ih (some t) hrest hm hfail

/-- First matching search link for C5. -/
def c5Link1 : AtomLink :=
  ⟨"https://ex.org/osd1", "search", some "application/opensearchdescription+xml"⟩

/-- Second matching search link for C5, pointing at a different
descriptor. -/
def c5Link2 : AtomLink :=
  ⟨"https://ex.org/osd2", "search", some "application/opensearchdescription+xml"⟩

/-- A one-element OpenSearch descriptor advertising template `t`. -/
def c5Osd (t : String) : List OsdElement :=
  [⟨"Url", some "application/atom+xml", some t⟩]

/-- Descriptor fetcher for C5: both descriptors fetch and parse fine. -/
def c5OsdEnv : OsdEnv :=
  ⟨fun u =>
    if u = "https://ex.org/osd1" then some (c5Osd "https://ex.org/s1?q={searchTerms}")
    else if u = "https://ex.org/osd2" then some (c5Osd "https://ex.org/s2?q={searchTerms}")
    else none⟩

/-- URL oracle on which every parse fails (sn unparseable href). -/
def c5BadUEnv : UrlEnv :=
  ⟨fun _ => .error (.other "empty host"), fun _ _ => .error (.other "empty host")⟩

/-- A matching search link whose href will not parse. -/
def c5BadLink : AtomLink :=
  ⟨"http://bad", "search", some "application/opensearchdescription+xml"⟩

/-- C5 counterexample: (1) with two matching search links whose pipelines
both succeed, discovery returns the LAST link's template even though the
first link's pipeline yields a different one — refuting "uses the first
link"; (2) a matching link with an unparseable href makes discovery PANIC
(the `expect("")`), refuting "no failure at any step produces a hard
error or crash". -/
theorem C5_counterexample :
    find_search_url w2UEnv c5OsdEnv "https://ex.org" [c5Link1, c5Link2]
      = .found "https://ex.org/s2?q={searchTerms}" ∧
    linkPipeline w2UEnv c5OsdEnv "https://ex.org" c5Link1
      = .ok "https://ex.org/s1?q={searchTerms}" ∧
    ("https://ex.org/s1?q={searchTerms}" : String)
      ≠ "https://ex.org/s2?q={searchTerms}" ∧
    find_search_url c5BadUEnv c5OsdEnv "https://ex.org" [c5BadLink] = .panicked := by
  exact ⟨rfl, rfl, by decide, rfl⟩

/-- C5 (amended): OpenSearch discovery scans every link whose rel is
`"search"` and whose mime type contains `"opensearchdescription"`, in
order.  With no matching link it returns absent.  When every matching
link's descriptor pipeline succeeds, the LAST matching link's template is
returned.  A matching link whose href does not parse causes a panic.  A
matching link whose pipeline fails after href resolution (failed fetch,
malformed descriptor XML, or unresolvable template) aborts the whole
discovery with absent, discarding any earlier success. -/
theorem C5_opensearch_discovery (uenv : UrlEnv) (oenv : OsdEnv) (dom : Url)
    (links : List AtomLink) :
    ((∀ l ∈ links, searchLinkMatches l = false) →
      find_search_url uenv oenv dom links = .absent) ∧
    ((∀ l ∈ links, searchLinkMatches l = true →
        pipeOk (linkPipeline uenv oenv dom l) = true) →
      find_search_url uenv oenv dom links
        = match (matchTemplates uenv oenv dom links).getLast? with
          | some t => .found t
          | none => .absent) ∧
    (∀ pre l post, links = pre ++ l :: post →
      (∀ l2 ∈ pre, searchLinkMatches l2 = true →
        pipeOk (linkPipeline uenv oenv dom l2) = true) →
      searchLinkMatches l = true →
      linkPipeline uenv oenv dom l = .badHref →
      find_search_url uenv oenv dom links = .panicked) ∧
    (∀ pre l post, links = pre ++ l :: post →
      (∀ l2 ∈ pre, searchLinkMatches l2 = true →
        pipeOk (linkPipeline uenv oenv dom l2) = true) →
      searchLinkMatches l = true →
      linkPipeline uenv oenv dom l = .failed →
      find_search_url uenv oenv dom links = .absent) := by
  refine ⟨?_, ?_, ?_, ?_⟩
  · intro h
    exact findSearchUrlAux_nomatch uenv oenv dom links none h
  · intro h
    have hall := findSearchUrlAux_all_ok uenv oenv dom links none h
    rw [show find_search_url uenv oenv dom links
        = findSearchUrlAux uenv oenv dom links none from rfl, hall]
  · intro pre l post hsplit hpre hm hbad
    rw [show find_search_url uenv oenv dom links
        = findSearchUrlAux uenv oenv dom links none from rfl, hsplit]
    exact findSearchUrlAux_panic uenv oenv dom l post pre none hpre hm hbad
  · intro pre l post hsplit hpre hm hfail
    rw [show find_search_url uenv oenv dom links
        = findSearchUrlAux uenv oenv dom links none from rfl, hsplit]
    exact findSearchUrlAux_failed uenv oenv dom l post pre none hpre hm hfail

/-- C5 witness: the amended theorem applied to the two-link feed yields
the last template. -/
theorem C5_opensearch_discovery_witness :
    find_search_url w2UEnv c5OsdEnv "https://ex.org" [c5Link1, c5Link2]
      = .found "https://ex.org/s2?q={searchTerms}" := by
  have h := (C5_opensearch_discovery w2UEnv c5OsdEnv "https://ex.org"
    [c5Link1, c5Link2]).2.1 (by decide)
  exact h.trans rfl
